import Mathlib

/-!
Verification of the Plastic-SCM-to-Git migration scripts
(`migrate_plastic_to_git.py` and `migrate_simple.py`).

The Python sources are shallowly embedded below: the XML history document
becomes an inductive tree, each parsing / message-synthesis / branch-mapping
function becomes a Lean function translated line by line from the script, and
the per-changeset driver loops become explicit step functions over a run-state
record, with all external commands (git, cm) answered by an oracle.
-/

namespace Migration

/-! ### Python string primitives used by the scripts -/

/-- Whitespace set of Python `str.strip()` restricted to ASCII:
space, tab, newline, carriage return, vertical tab, form feed. -/
def pyIsSpace (c : Char) : Bool :=
  c = ' ' || c = '\t' || c = '\n' || c = '\r' || c = '\x0b' || c = '\x0c'

/-- Python `s.strip()`: drop leading and trailing whitespace. -/
def pyStrip (s : String) : String :=
  ⟨((s.data.dropWhile pyIsSpace).reverse.dropWhile pyIsSpace).reverse⟩

/-- Python `s.lstrip('/')`: drop every leading `/` character. -/
def lstripSlashes (s : String) : String :=
  ⟨s.data.dropWhile (fun c => c = '/')⟩

/-- Python `s.replace(a, r)` for a single-character pattern `a`:
replace every occurrence of the character `a` by the string `r`. -/
def pyReplaceChar (s : String) (a : Char) (r : String) : String :=
  ⟨s.data.flatMap (fun c => if c = a then r.data else [c])⟩

/-- Python f-string interpolation of a value that may be `None`
(`None` prints as the four characters `None`). -/
def optToPyStr (o : Option String) : String :=
  match o with
  | some s => s
  | none => "None"

/-! ### XML document model (`xml.etree.ElementTree` as used by the scripts) -/

/-- An XML element: tag, text content (possibly absent), child elements. -/
inductive Xml where
  | elem (tag : String) (text : Option String) (children : List Xml)
deriving Repr

def Xml.tag : Xml → String
  | .elem t _ _ => t

def Xml.text : Xml → Option String
  | .elem _ t _ => t

def Xml.children : Xml → List Xml
  | .elem _ _ c => c

/-- `ElementTree.Element.find`: first direct child with the given tag, if any. -/
def Xml.find (n : Xml) (t : String) : Option Xml :=
  n.children.find? (fun c => c.tag = t)

/-- `ElementTree.Element.findall`: all direct children with the given tag. -/
def Xml.findall (n : Xml) (t : String) : List Xml :=
  n.children.filter (fun c => c.tag = t)

/-- Accessing `.text` (or any attribute) on the result of `find` when the
element is absent raises `AttributeError` in Python; model it in `Except`. -/
def reqElem (o : Option Xml) : Except String Xml :=
  match o with
  | some e => Except.ok e
  | none => Except.error "AttributeError: NoneType object has no attribute"

def digitsToNatAux : List Char → Nat → Option Nat
  | [], acc => some acc
  | c :: rest, acc =>
    if c.isDigit then digitsToNatAux rest (10 * acc + (c.toNat - 48)) else none

/-- Value of a non-empty all-digit character sequence. -/
def parseDigits : List Char → Option Nat
  | [] => none
  | l => digitsToNatAux l 0

/-- Python `int(s)` on a string: an optional sign followed by digits
(surrounding whitespace and `_` digit separators, which CPython also
accepts, do not occur in the history files and are not modelled). -/
def pyIntOfString (s : String) : Option Int :=
  match s.data with
  | '-' :: rest => (parseDigits rest).map (fun n => -(n : Int))
  | '+' :: rest => (parseDigits rest).map (fun n => (n : Int))
  | l => (parseDigits l).map (fun n => (n : Int))

/-- Python `int(text)`: `TypeError` when the text is `None`,
`ValueError` when it does not parse as an integer. -/
def pyInt (o : Option String) : Except String Int :=
  match o with
  | none => Except.error "TypeError: int() argument must not be None"
  | some s =>
    match pyIntOfString s with
    | some n => Except.ok n
    | none => Except.error "ValueError: invalid literal for int()"

/-! ### Data model (`migrate_plastic_to_git.py`) -/

/-- One parsed file change (`changes.append({...})` in `parse_xml_history`).
Each field holds the `.text` of the corresponding element, which Python
stores even when it is `None`. -/
structure FileChange where
  type : Option String
  src_path : Option String
  dst_path : Option String
deriving Repr, DecidableEq

/-- One parsed changeset (`changesets.append({...})` in `parse_xml_history`). -/
structure Changeset where
  id : Int
  branch : Option String
  comment : String
  owner : Option String
  date_str : Option String
  changes : List FileChange
deriving Repr, DecidableEq

instance : Inhabited Changeset := ⟨⟨0, none, "", none, none, []⟩⟩

/-! ### History Reader of `migrate_plastic_to_git.py` (`parse_xml_history`) -/

/-- Parse one `Item` element of a `Changes` section. -/
def parseItem (item : Xml) : Except String FileChange :=
  match reqElem (item.find "Type") with
  | Except.error msg => Except.error msg
  | Except.ok typeElem =>
    match reqElem (item.find "SrcCmPath") with
    | Except.error msg => Except.error msg
    | Except.ok srcElem =>
      match reqElem (item.find "DstCmPath") with
      | Except.error msg => Except.error msg
      | Except.ok dstElem =>
        Except.ok { type := typeElem.text, src_path := srcElem.text,
                    dst_path := dstElem.text }

/-- Parse the `Item` children of a `Changes` element, in document order
(the first failing item aborts, as the Python exception would). -/
def parseItems : List Xml → Except String (List FileChange)
  | [] => Except.ok []
  | item :: rest =>
    match parseItem item with
    | Except.error msg => Except.error msg
    | Except.ok c =>
      match parseItems rest with
      | Except.error msg => Except.error msg
      | Except.ok cs => Except.ok (c :: cs)

/-- Parse one `Changeset` element.  Note `cs_elem.find('Changes')` followed
directly by `.findall('Item')`: a missing `Changes` section raises
`AttributeError`.  `comment` applies `or ""` to the text, the other text
fields are stored raw (possibly `None`). -/
def parseChangesetElem (cs_elem : Xml) : Except String Changeset :=
  match reqElem (cs_elem.find "ChangesetId") with
  | Except.error msg => Except.error msg
  | Except.ok idElem =>
  match pyInt idElem.text with
  | Except.error msg => Except.error msg
  | Except.ok cs_id =>
  match reqElem (cs_elem.find "Branch") with
  | Except.error msg => Except.error msg
  | Except.ok branchElem =>
  match reqElem (cs_elem.find "Comment") with
  | Except.error msg => Except.error msg
  | Except.ok commentElem =>
  match reqElem (cs_elem.find "Owner") with
  | Except.error msg => Except.error msg
  | Except.ok ownerElem =>
  match reqElem (cs_elem.find "Date") with
  | Except.error msg => Except.error msg
  | Except.ok dateElem =>
  match reqElem (cs_elem.find "Changes") with
  | Except.error msg => Except.error msg
  | Except.ok changesElem =>
  match parseItems (changesElem.findall "Item") with
  | Except.error msg => Except.error msg
  | Except.ok changes =>
    Except.ok { id := cs_id, branch := branchElem.text,
                comment := (commentElem.text).getD "",
                owner := ownerElem.text, date_str := dateElem.text,
                changes := changes }

/-- The `for cs_elem in root.findall('Changeset')` accumulation loop. -/
def parseChangesets : List Xml → Except String (List Changeset)
  | [] => Except.ok []
  | e :: rest =>
    match parseChangesetElem e with
    | Except.error msg => Except.error msg
    | Except.ok c =>
      match parseChangesets rest with
      | Except.error msg => Except.error msg
      | Except.ok cs => Except.ok (c :: cs)

/-- Sort key comparison of `changesets.sort(key=lambda x: x['id'])`. -/
def idLe (a b : Changeset) : Prop := a.id ≤ b.id

instance : DecidableRel idLe := fun a b => Int.decLe a.id b.id

instance : IsTotal Changeset idLe := ⟨fun a b => le_total a.id b.id⟩

instance : IsTrans Changeset idLe := ⟨fun _ _ _ h h' => le_trans h h'⟩

/-- `parse_xml_history`: parse every `Changeset` child of the root, then
sort ascending by changeset id.  Python `list.sort` is a stable sort by the
key; `List.insertionSort` is a stable sort, hence computes the same list. -/
def parse_xml_history (root : Xml) : Except String (List Changeset) :=
  match parseChangesets (root.findall "Changeset") with
  | Except.error msg => Except.error msg
  | Except.ok changesets => Except.ok (List.insertionSort idLe changesets)

/-! ### Message Synthesizer (`generate_commit_message`) -/

/-- Number of changes of a given type: the value `change_types[t]` of the
`defaultdict(int)` tally built by the `for change in cs['changes']` loop. -/
def countType (changes : List FileChange) (t : String) : Nat :=
  (changes.filter (fun c => c.type = some t)).length

/-- The `parts` list plus `", ".join(parts)` of `generate_commit_message`
(shared verbatim with the synthesis block of `migrate_simple.py`). -/
def changeParts (a c d m : Nat) : List String :=
  (if a ≠ 0 then ["Add " ++ toString a ++ " file(s)"] else []) ++
  (if c ≠ 0 then ["Update " ++ toString c ++ " file(s)"] else []) ++
  (if d ≠ 0 then ["Delete " ++ toString d ++ " file(s)"] else []) ++
  (if m ≠ 0 then ["Move " ++ toString m ++ " file(s)"] else [])

/-- `generate_commit_message`: a comment that is non-empty after `strip()`
is returned verbatim; otherwise tally the change types (`not change_types`
holds exactly when the change list is empty, since every change inserts a
key) and build the message, falling back to `Update (changeset <id>)`. -/
def generate_commit_message (cs : Changeset) : String :=
  if pyStrip cs.comment ≠ "" then cs.comment
  else if cs.changes.isEmpty then "Update (changeset " ++ toString cs.id ++ ")"
  else String.intercalate ", "
    (changeParts (countType cs.changes "Added") (countType cs.changes "Changed")
                 (countType cs.changes "Deleted") (countType cs.changes "Moved"))

/-! ### Branch Resolver name mapping -/

/-- The name mapping `branch_name.lstrip('/').replace('/', '-')`, used in
`get_or_create_branch`, `migrate_history` and `migrate`. -/
def gitBranchName (branch : String) : String :=
  pyReplaceChar (lstripSlashes branch) '/' "-"

/-! ### Commit-message escaping -/

/-- `migrate_plastic_to_git.py`: `message.replace('"', '\\"').replace('$', '\\$')`. -/
def escapeMessagePlastic (m : String) : String :=
  pyReplaceChar (pyReplaceChar m '"' "\\\"") '$' "\\$"

/-- `migrate_simple.py`: `comment.replace('"', '\\"').replace("'", "'\\''")`. -/
def escapeMessageSimple (m : String) : String :=
  pyReplaceChar (pyReplaceChar m '"' "\\\"") '\x27' "\x27\\\x27\x27"

/-! ### History Reader of `migrate_simple.py` (`parse_history`) -/

/-- One parsed changeset of the simple variant: the commit message is
already synthesized into `comment` during parsing. -/
structure SimpleCS where
  id : Int
  branch : Option String
  comment : String
  date : Option String
deriving Repr, DecidableEq

instance : Inhabited SimpleCS := ⟨⟨0, none, "", none⟩⟩

/-- The tally loop `for item in (cs.find('Changes') or [])`: an absent
`Changes` element — and also one with no children, which is falsy in
`ElementTree` — contributes nothing; iterating an element yields all its
children.  Each `item.find('Type')` must exist (`AttributeError` otherwise);
its text (possibly `None`) is the tally key. -/
def simpleItemTypes (cs : Xml) : Except String (List (Option String)) :=
  let items := match cs.find "Changes" with
    | some e => e.children
    | none => []
  go items
where
  go : List Xml → Except String (List (Option String))
    | [] => Except.ok []
    | item :: rest =>
      match reqElem (item.find "Type") with
      | Except.error msg => Except.error msg
      | Except.ok typeElem =>
        match go rest with
        | Except.error msg => Except.error msg
        | Except.ok ts => Except.ok (typeElem.text :: ts)

/-- Parse one `Changeset` element of the simple variant: the comment is
stripped at parse time, and an empty comment is replaced by the synthesized
message (same `parts` construction as `changeParts`). -/
def parseSimpleCS (cs : Xml) : Except String SimpleCS :=
  match reqElem (cs.find "ChangesetId") with
  | Except.error msg => Except.error msg
  | Except.ok idElem =>
  match pyInt idElem.text with
  | Except.error msg => Except.error msg
  | Except.ok cs_id =>
  match reqElem (cs.find "Branch") with
  | Except.error msg => Except.error msg
  | Except.ok branchElem =>
  match reqElem (cs.find "Comment") with
  | Except.error msg => Except.error msg
  | Except.ok commentElem =>
  match reqElem (cs.find "Date") with
  | Except.error msg => Except.error msg
  | Except.ok dateElem =>
  match simpleItemTypes cs with
  | Except.error msg => Except.error msg
  | Except.ok types =>
    let comment0 := pyStrip ((commentElem.text).getD "")
    let comment :=
      if comment0 = "" then
        let parts := changeParts (types.filter (fun t => t = some "Added")).length
                                 (types.filter (fun t => t = some "Changed")).length
                                 (types.filter (fun t => t = some "Deleted")).length
                                 (types.filter (fun t => t = some "Moved")).length
        if parts.isEmpty then "Update (changeset " ++ toString cs_id ++ ")"
        else String.intercalate ", " parts
      else comment0
    Except.ok { id := cs_id, branch := branchElem.text, comment := comment,
                date := dateElem.text }

/-- The accumulation loop of `parse_history`. -/
def parseSimpleList : List Xml → Except String (List SimpleCS)
  | [] => Except.ok []
  | e :: rest =>
    match parseSimpleCS e with
    | Except.error msg => Except.error msg
    | Except.ok c =>
      match parseSimpleList rest with
      | Except.error msg => Except.error msg
      | Except.ok cs => Except.ok (c :: cs)

/-- Sort key comparison of `sorted(changesets, key=lambda x: x['id'])`. -/
def idLeS (a b : SimpleCS) : Prop := a.id ≤ b.id

instance : DecidableRel idLeS := fun a b => Int.decLe a.id b.id

instance : IsTotal SimpleCS idLeS := ⟨fun a b => le_total a.id b.id⟩

instance : IsTrans SimpleCS idLeS := ⟨fun _ _ _ h h' => le_trans h h'⟩

/-- `parse_history` of `migrate_simple.py` (`sorted` is likewise stable). -/
def parse_history (root : Xml) : Except String (List SimpleCS) :=
  match parseSimpleList (root.findall "Changeset") with
  | Except.error msg => Except.error msg
  | Except.ok changesets => Except.ok (List.insertionSort idLeS changesets)

/-! ### External commands and driver state

Every shell invocation (`git`, `cm`) is answered by an oracle.  Outcomes of
commands whose text is determined by their arguments are keyed by those
arguments; the commit outcome is keyed by the invocation index (number of
commit attempts made earlier in the run). -/

structure Oracle where
  branchExists : String → Bool
  checkoutOk : String → Bool
  checkoutNewOk : String → Bool
  cat : String → Int → Option String
  commitOk : Nat → Bool
  switchOk : Int → Bool

/-- Working-directory contents, keyed by path relative to `WORK_DIR`
(the scripts build `os.path.join(WORK_DIR, path.lstrip('/'))`).
File bytes are represented by their decoded string: `run_command` captures
with `text=True`, so content that reaches a write is always a decoded
string, re-encoded by `content.encode('utf-8', errors='ignore')`
(lossless on the strings `text=True` can produce; undecodable binary output
makes `subprocess.run` raise, which `run_command` turns into returncode 1). -/
def Fs : Type := String → Option String

def GIT_AUTHOR_EMAIL : String := "danilodevs@gmail.com"

def GIT_AUTHOR_NAME : String := "Danilo Devs"

/-- `get_or_create_branch`: recompute the mapped name from its argument,
probe existence with `git rev-parse --verify`, then `git checkout -b` or
`git checkout`.  Every returncode is discarded; only the name is returned. -/
def get_or_create_branch (orc : Oracle) (branch_name : String) : String :=
  let git_branch := gitBranchName branch_name
  let _ := if orc.branchExists git_branch then orc.checkoutOk git_branch
           else orc.checkoutNewOk git_branch
  git_branch

/-! ### Content Reconciler (`apply_changeset_files`) -/

/-- One entry of the `files_to_process` list. -/
inductive FileAction where
  | add_or_update (path : Option String) (cs_id : Int)
  | delete (path : Option String) (cs_id : Int)
deriving Repr, DecidableEq

/-- The first loop of `apply_changeset_files`: plan the actions.  A `Moved`
change becomes a delete of `src_path` followed by an add of `dst_path`;
unknown (or `None`) types plan nothing. -/
def files_to_process (changes : List FileChange) (changeset_id : Int) : List FileAction :=
  changes.flatMap (fun change =>
    if change.type = some "Added" || change.type = some "Changed" then
      [FileAction.add_or_update change.dst_path changeset_id]
    else if change.type = some "Deleted" then
      [FileAction.delete change.dst_path changeset_id]
    else if change.type = some "Moved" then
      [FileAction.delete change.src_path changeset_id,
       FileAction.add_or_update change.dst_path changeset_id]
    else [])

/-- One iteration of the second loop.  For `add_or_update`, `run_command`
captures `cm cat` output and returns `result.stdout.strip()`; on success the
stripped text is written (encoded) to the destination path, on failure only a
warning is printed.  A `None` path reaches the command as the text `None`
and, on a successful retrieval, `path.lstrip('/')` raises `AttributeError`.
For `delete`, the file is removed when present (plus `git rm`, external). -/
def applyAction (orc : Oracle) (fs : Fs) : FileAction → Except String Fs
  | .add_or_update path cs_id =>
    match orc.cat (optToPyStr path) cs_id with
    | some raw =>
      match path with
      | some p =>
        let key := lstripSlashes p
        Except.ok (fun q => if q = key then some (pyStrip raw) else fs q)
      | none => Except.error "AttributeError: NoneType object has no attribute"
    | none => Except.ok fs
  | .delete path _ =>
    match path with
    | some p =>
      let key := lstripSlashes p
      if (fs key).isSome then Except.ok (fun q => if q = key then none else fs q)
      else Except.ok fs
    | none => Except.error "AttributeError: NoneType object has no attribute"

def applyActions (orc : Oracle) : Fs → List FileAction → Except String Fs
  | fs, [] => Except.ok fs
  | fs, act :: rest =>
    match applyAction orc fs act with
    | Except.error msg => Except.error msg
    | Except.ok fs1 => applyActions orc fs1 rest

/-- `apply_changeset_files(cs, changeset_id)` acting on the working directory. -/
def apply_changeset_files (orc : Oracle) (fs : Fs) (cs : Changeset)
    (changeset_id : Int) : Except String Fs :=
  applyActions orc fs (files_to_process cs.changes changeset_id)

/-! ### Commit Emitter (`create_git_commit`) -/

/-- One `git commit` invocation: the message argument, the escaped text
actually interpolated into the command, the interpolated date, the fixed
author identity, the (constant) `--allow-empty` flag, and the returncode. -/
structure CommitRec where
  message : String
  message_safe : String
  date : String
  author_email : String
  author_name : String
  allow_empty : Bool
  ok : Bool
deriving Repr, DecidableEq

/-- `create_git_commit`: `git add -A`, then the commit command with escaped
message, verbatim date, fixed author, and `--allow-empty`.  `idx` is the
invocation index keying the oracle's outcome. -/
def create_git_commit (orc : Oracle) (message : String) (date_str : Option String)
    (author_email author_name : String) (idx : Nat) : CommitRec :=
  { message := message, message_safe := escapeMessagePlastic message,
    date := optToPyStr date_str, author_email := author_email,
    author_name := author_name, allow_empty := true, ok := orc.commitOk idx }

/-! ### Migration Driver of `migrate_plastic_to_git.py` (`migrate_history`) -/

structure PRunState where
  current_branch : Option String
  git_branches : List String
  branchCalls : List String
  fs : Fs
  commits : List CommitRec

/-- The body of the `for i, cs in enumerate(changesets)` loop.  Branch state
is updated whenever the mapped name differs from `current_branch`, with the
result of `get_or_create_branch` (and every returncode inside it) discarded;
then message synthesis, file application, and one commit attempt. -/
def stepPlastic (orc : Oracle) (st : PRunState) (cs : Changeset) :
    Except String PRunState :=
  match cs.branch with
  | none => Except.error "AttributeError: NoneType object has no attribute"
  | some branchStr =>
    let git_branch := gitBranchName branchStr
    let st1 :=
      if some git_branch ≠ st.current_branch then
        let _ := get_or_create_branch orc git_branch
        { st with current_branch := some git_branch,
                  git_branches :=
                    if git_branch ∈ st.git_branches then st.git_branches
                    else st.git_branches ++ [git_branch],
                  branchCalls := st.branchCalls ++ [git_branch] }
      else st
    let message := generate_commit_message cs
    match apply_changeset_files orc st1.fs cs cs.id with
    | Except.error msg => Except.error msg
    | Except.ok fs1 =>
      let cr := create_git_commit orc message cs.date_str GIT_AUTHOR_EMAIL
                  GIT_AUTHOR_NAME st1.commits.length
      Except.ok { st1 with fs := fs1, commits := st1.commits ++ [cr] }

def runPlastic (orc : Oracle) : PRunState → List Changeset → Except String PRunState
  | st, [] => Except.ok st
  | st, cs :: rest =>
    match stepPlastic orc st cs with
    | Except.error msg => Except.error msg
    | Except.ok st1 => runPlastic orc st1 rest

/-- The final summary block of `migrate_history`: it prints
`len(changesets)` as the number of commits created and `len(git_branches)`
as the number of branches created. -/
structure PSummary where
  commits_created : Nat
  branches_created : Nat
deriving Repr, DecidableEq

/-- `migrate_history`: parse, print the banner (whose `changesets[0]` /
`changesets[-1]` indexing raises `IndexError` on an empty history), run the
loop, then print the summary. -/
def migrate_history (orc : Oracle) (fs0 : Fs) (root : Xml) :
    Except String (PRunState × PSummary) :=
  match parse_xml_history root with
  | Except.error msg => Except.error msg
  | Except.ok changesets =>
    if changesets.isEmpty then Except.error "IndexError: list index out of range"
    else
      match runPlastic orc
        { current_branch := none, git_branches := [], branchCalls := [],
          fs := fs0, commits := [] } changesets with
      | Except.error msg => Except.error msg
      | Except.ok final =>
        Except.ok (final, ⟨changesets.length, final.git_branches.length⟩)

/-! ### Migration Driver of `migrate_simple.py` (`migrate`) -/

structure SRunState where
  current_branch : Option String
  git_branches : List String
  branchCalls : List String
  commits : List CommitRec
  success_count : Nat
deriving Repr, DecidableEq

/-- The loop body of `migrate`: `cm switch cs:{id}` first (on failure print
and `continue`), then the branch block (returncodes discarded, state updated
unconditionally), `git add -A`, and the commit attempt, counting successes. -/
def stepSimple (orc : Oracle) (st : SRunState) (cs : SimpleCS) :
    Except String SRunState :=
  if orc.switchOk cs.id then
    match cs.branch with
    | none => Except.error "AttributeError: NoneType object has no attribute"
    | some branchStr =>
      let git_branch := gitBranchName branchStr
      let st1 :=
        if some git_branch ≠ st.current_branch then
          let _ := if orc.branchExists git_branch then orc.checkoutOk git_branch
                   else orc.checkoutNewOk git_branch
          { st with current_branch := some git_branch,
                    git_branches :=
                      if git_branch ∈ st.git_branches then st.git_branches
                      else st.git_branches ++ [git_branch],
                    branchCalls := st.branchCalls ++ [git_branch] }
        else st
      let cr : CommitRec :=
        { message := cs.comment, message_safe := escapeMessageSimple cs.comment,
          date := optToPyStr cs.date, author_email := GIT_AUTHOR_EMAIL,
          author_name := GIT_AUTHOR_NAME, allow_empty := true,
          ok := orc.commitOk st1.commits.length }
      Except.ok { st1 with
                  commits := st1.commits ++ [cr],
                  success_count := st1.success_count + (if cr.ok then 1 else 0) }
  else Except.ok st

def runSimple (orc : Oracle) : SRunState → List SimpleCS → Except String SRunState
  | st, [] => Except.ok st
  | st, cs :: rest =>
    match stepSimple orc st cs with
    | Except.error msg => Except.error msg
    | Except.ok st1 => runSimple orc st1 rest

/-- The final summary of `migrate`: `Complete: {success_count}/{len(changesets)}`. -/
structure SSummary where
  success_count : Nat
  total : Nat
deriving Repr, DecidableEq

/-- `migrate` of `migrate_simple.py`. -/
def migrate (orc : Oracle) (root : Xml) : Except String (SRunState × SSummary) :=
  match parse_history root with
  | Except.error msg => Except.error msg
  | Except.ok changesets =>
    match runSimple orc
      { current_branch := none, git_branches := [], branchCalls := [],
        commits := [], success_count := 0 } changesets with
    | Except.error msg => Except.error msg
    | Except.ok final =>
      Except.ok (final, ⟨final.success_count, changesets.length⟩)

/-! ### Spec-side name mapping, for refinement comparison -/

/-- Modelled from the spec: "strip a single leading path-separator" —
remove exactly one leading `/` when present. -/
def stripOneLeadingSlash (s : String) : String :=
  match s.data with
  | '/' :: rest => ⟨rest⟩
  | _ => s

/-- Modelled from the spec: strip a single leading separator, then replace
every remaining separator with the flat delimiter `-`. -/
def specBranchNameOneStrip (s : String) : String :=
  pyReplaceChar (stripOneLeadingSlash s) '/' "-"

/-- Whether a string begins with two path separators (the inputs on which
`lstrip('/')` and a single strip differ). -/
def hasDoubleLeadingSlash (s : String) : Bool :=
  match s.data with
  | '/' :: '/' :: _ => true
  | _ => false

/-! ### Concrete history documents and oracles used by witnesses -/

/-- Build a well-formed `Item` element. -/
def itemElem (t s d : String) : Xml :=
  .elem "Item" none [.elem "Type" (some t) [], .elem "SrcCmPath" (some s) [],
                     .elem "DstCmPath" (some d) []]

/-- Build a well-formed `Changeset` element. -/
def csElem (id branch comment owner date : String) (items : List Xml) : Xml :=
  .elem "Changeset" none
    [.elem "ChangesetId" (some id) [],
     .elem "Branch" (some branch) [],
     .elem "Comment" (some comment) [],
     .elem "Owner" (some owner) [],
     .elem "Date" (some date) [],
     .elem "Changes" none items]

/-- An oracle on which every external command succeeds and every retrieved
file content is the fixed text `data`. -/
def orcAllOk : Oracle :=
  { branchExists := fun _ => true, checkoutOk := fun _ => true,
    checkoutNewOk := fun _ => true, cat := fun _ _ => some "data",
    commitOk := fun _ => true, switchOk := fun _ => true }

/-- An oracle on which every branch-related git command fails
(`rev-parse` nonzero, `checkout -b` and `checkout` nonzero) while content
retrieval and commits succeed. -/
def orcBranchFail : Oracle :=
  { branchExists := fun _ => false, checkoutOk := fun _ => false,
    checkoutNewOk := fun _ => false, cat := fun _ _ => some "data",
    commitOk := fun _ => true, switchOk := fun _ => true }

/-- An oracle on which every `git commit` invocation fails and everything
else succeeds. -/
def orcCommitFail : Oracle :=
  { branchExists := fun _ => true, checkoutOk := fun _ => true,
    checkoutNewOk := fun _ => true, cat := fun _ _ => some "data",
    commitOk := fun _ => false, switchOk := fun _ => true }

/-- An oracle whose content retrieval returns text with a trailing newline. -/
def orcNewline : Oracle :=
  { branchExists := fun _ => true, checkoutOk := fun _ => true,
    checkoutNewOk := fun _ => true, cat := fun _ _ => some "hello\n",
    commitOk := fun _ => true, switchOk := fun _ => true }

/-- The empty working directory. -/
def fsEmpty : Fs := fun _ => none

/-- The driver state at the start of a `migrate_history` run. -/
def pstInit : PRunState :=
  { current_branch := none, git_branches := [], branchCalls := [],
    fs := fsEmpty, commits := [] }

/-- The driver state at the start of a `migrate` run. -/
def sstInit : SRunState :=
  { current_branch := none, git_branches := [], branchCalls := [],
    commits := [], success_count := 0 }

/-- Two-changeset history with the records listed newest first. -/
def c1docA : Xml :=
  .elem "History" none [csElem "2" "/main" "second" "o" "d2" [],
                        csElem "1" "/main" "first" "o" "d1" []]

/-- The same two-changeset history with the records listed oldest first. -/
def c1docB : Xml :=
  .elem "History" none [csElem "1" "/main" "first" "o" "d1" [],
                        csElem "2" "/main" "second" "o" "d2" []]

/-- The parse result both orderings of the two-changeset history yield. -/
def c1sorted : List Changeset :=
  [⟨1, some "/main", "first", some "o", some "d1", []⟩,
   ⟨2, some "/main", "second", some "o", some "d2", []⟩]

/-- The simple variant's parse result for the same two-changeset history. -/
def c1sortedS : List SimpleCS :=
  [⟨1, some "/main", "first", some "d1"⟩,
   ⟨2, some "/main", "second", some "d2"⟩]

/-- One changeset whose single change adds the file `/a.txt`. -/
def docOneAdd : Xml :=
  .elem "History" none
    [csElem "1" "/main" "msg" "o" "d1" [itemElem "Added" "/a.txt" "/a.txt"]]

/-- Two plain changesets on one branch. -/
def docTwo : Xml :=
  .elem "History" none [csElem "1" "/main" "first" "o" "d1" [],
                        csElem "2" "/main" "second" "o" "d2" []]

/-- A `Changeset` element with every required field but no `Changes`
section at all. -/
def elemNoChanges : Xml :=
  .elem "Changeset" none
    [.elem "ChangesetId" (some "7") [],
     .elem "Branch" (some "/main") [],
     .elem "Comment" (some "") [],
     .elem "Owner" (some "o") [],
     .elem "Date" (some "d7") []]

/-- A history whose only changeset record lacks a `Changes` section. -/
def docNoChanges : Xml := .elem "History" none [elemNoChanges]

/-- A history whose only changeset has a comment padded with whitespace. -/
def docPaddedComment : Xml :=
  .elem "History" none [csElem "1" "/main" " fix " "o" "d1" []]

/-- A changeset with three `Added` changes and one `Deleted` change and no
comment. -/
def cs8 : Changeset :=
  ⟨42, some "/main", "", some "o", some "d8",
   [⟨some "Added", some "/a", some "/a"⟩, ⟨some "Added", some "/b", some "/b"⟩,
    ⟨some "Added", some "/c", some "/c"⟩, ⟨some "Deleted", some "/d", some "/d"⟩]⟩

/-- A changeset with an empty change list and a whitespace-only comment. -/
def cs9 : Changeset := ⟨42, some "/main", " ", some "o", some "d9", []⟩

/-- A plain changeset on branch `/feature/x` with no changes. -/
def cs10 : Changeset := ⟨5, some "/feature/x", "m", some "o", some "d5", []⟩

/-- A plain simple-variant changeset on branch `/feature/x`. -/
def scs10 : SimpleCS := ⟨5, some "/feature/x", "m", some "d5"⟩

/-- A failed commit record with a plain message. -/
def failedCommit (msg d : String) : CommitRec :=
  ⟨msg, msg, d, GIT_AUTHOR_EMAIL, GIT_AUTHOR_NAME, true, false⟩

/-- The simple-variant run state after `docTwo` under `orcCommitFail`. -/
def c3st : SRunState :=
  { current_branch := some "main", git_branches := ["main"],
    branchCalls := ["main"],
    commits := [failedCommit "first" "d1", failedCommit "second" "d2"],
    success_count := 0 }

/-- A changeset whose comment has leading and trailing whitespace. -/
def csPadded : Changeset := ⟨1, some "/main", " fix ", some "o", some "d1", []⟩

/-- The plastic-variant run state after `docTwo` under `orcCommitFail`. -/
def c3stp : PRunState :=
  { current_branch := some "main", git_branches := ["main"],
    branchCalls := ["main"], fs := fsEmpty,
    commits := [failedCommit "first" "d1", failedCommit "second" "d2"] }

/-! ## Theorems -/

/-! ### Helper lemmas about the parsers and sorting -/

/-- A successful `parseChangesets` is exactly the element-wise parse. -/
theorem parseChangesets_eq_map :
    ∀ {xs : List Xml} {l : List Changeset}, parseChangesets xs = Except.ok l →
      l = xs.map (fun e => (parseChangesetElem e).toOption.getD default) := by
  intro xs
  induction xs with
  | nil =>
    intro l h
    simp [parseChangesets] at h
    simp [h.symm]
  | cons e rest ih =>
    intro l h
    rw [parseChangesets] at h
    cases he : parseChangesetElem e with
    | error msg => rw [he] at h; cases h
    | ok c =>
      rw [he] at h
      cases hr : parseChangesets rest with
      | error msg => rw [hr] at h; cases h
      | ok cs =>
        rw [hr] at h
        cases h
        simp [ih hr, he, Except.toOption]

/-- A successful `parseSimpleList` is exactly the element-wise parse. -/
theorem parseSimpleList_eq_map :
    ∀ {xs : List Xml} {l : List SimpleCS}, parseSimpleList xs = Except.ok l →
      l = xs.map (fun e => (parseSimpleCS e).toOption.getD default) := by
  intro xs
  induction xs with
  | nil =>
    intro l h
    simp [parseSimpleList] at h
    simp [h.symm]
  | cons e rest ih =>
    intro l h
    rw [parseSimpleList] at h
    cases he : parseSimpleCS e with
    | error msg => rw [he] at h; cases h
    | ok c =>
      rw [he] at h
      cases hr : parseSimpleList rest with
      | error msg => rw [hr] at h; cases h
      | ok cs =>
        rw [hr] at h
        cases h
        simp [ih hr, he, Except.toOption]

/-- Two lists that are permutations of each other, both weakly sorted by an
injective-on-them integer key, are equal. -/
theorem sorted_key_eq_of_perm {α : Type} (key : α → Int) {l l' : List α}
    (hp : l.Perm l')
    (hs : l.Pairwise (fun a b => key a ≤ key b))
    (hs' : l'.Pairwise (fun a b => key a ≤ key b))
    (hnd : (l.map key).Nodup) : l = l' := by
  have hnd' : (l'.map key).Nodup := ((hp.map key).nodup_iff).mp hnd
  have hlt : l.Pairwise (fun a b => key a < key b) :=
    (hs.and (List.pairwise_map.mp hnd)).imp (fun h => lt_of_le_of_ne h.1 h.2)
  have hlt' : l'.Pairwise (fun a b => key a < key b) :=
    (hs'.and (List.pairwise_map.mp hnd')).imp (fun h => lt_of_le_of_ne h.1 h.2)
  haveI : IsAntisymm α (fun a b => key a < key b) :=
    ⟨fun a b h h' => ((lt_asymm h) h').elim⟩
  exact List.eq_of_perm_of_sorted hp hlt hlt'

/-- Weak sortedness by key plus distinct keys gives a strictly ascending
key sequence. -/
theorem pairwise_lt_map_key {α : Type} (key : α → Int) {l : List α}
    (hs : l.Pairwise (fun a b => key a ≤ key b)) (hnd : (l.map key).Nodup) :
    (l.map key).Pairwise (fun a b => a < b) := by
  rw [List.pairwise_map]
  exact (hs.and (List.pairwise_map.mp hnd)).imp (fun h => lt_of_le_of_ne h.1 h.2)

/-- Decompose a successful `parse_xml_history`: the raw parse succeeded and
the result is its stable sort, hence weakly sorted by id. -/
theorem parse_xml_history_ok {root : Xml} {l : List Changeset}
    (h : parse_xml_history root = Except.ok l) :
    ∃ l0, parseChangesets (root.findall "Changeset") = Except.ok l0 ∧
      l = List.insertionSort idLe l0 ∧ l.Pairwise (fun a b => a.id ≤ b.id) := by
  rw [parse_xml_history] at h
  cases h0 : parseChangesets (root.findall "Changeset") with
  | error msg => rw [h0] at h; cases h
  | ok l0 =>
    rw [h0] at h
    cases h
    exact ⟨l0, rfl, rfl, List.sorted_insertionSort idLe l0⟩

/-- Decompose a successful `parse_history` of the simple variant. -/
theorem parse_history_ok {root : Xml} {l : List SimpleCS}
    (h : parse_history root = Except.ok l) :
    ∃ l0, parseSimpleList (root.findall "Changeset") = Except.ok l0 ∧
      l = List.insertionSort idLeS l0 ∧ l.Pairwise (fun a b => a.id ≤ b.id) := by
  rw [parse_history] at h
  cases h0 : parseSimpleList (root.findall "Changeset") with
  | error msg => rw [h0] at h; cases h
  | ok l0 =>
    rw [h0] at h
    cases h
    exact ⟨l0, rfl, rfl, List.sorted_insertionSort idLeS l0⟩

/-! ### C1 -/

/-- C1: for every input history document — under every ordering of the
`Changeset` records in it — both History Readers hand the Migration Driver a
changeset list whose id sequence is strictly ascending (given the invariant
that ids are unique), and the list is identical for any permutation of the
input records, so the driver processes changesets in strictly ascending id
order independent of input order. -/
theorem c1_ascending_id_order_input_independent
    (root root' : Xml) (l l' : List Changeset)
    (hperm : (root.findall "Changeset").Perm (root'.findall "Changeset"))
    (h : parse_xml_history root = Except.ok l)
    (h' : parse_xml_history root' = Except.ok l')
    (hnodup : (l.map Changeset.id).Nodup)
    (sroot sroot' : Xml) (s s' : List SimpleCS)
    (hpermS : (sroot.findall "Changeset").Perm (sroot'.findall "Changeset"))
    (hS : parse_history sroot = Except.ok s)
    (hS' : parse_history sroot' = Except.ok s')
    (hnodupS : (s.map SimpleCS.id).Nodup) :
    ((l.map Changeset.id).Pairwise (fun a b => a < b) ∧ l = l') ∧
    ((s.map SimpleCS.id).Pairwise (fun a b => a < b) ∧ s = s') := by
  constructor
  · obtain ⟨l0, h0, hl, hsorted⟩ := parse_xml_history_ok h
    obtain ⟨l0', h0', hl', hsorted'⟩ := parse_xml_history_ok h'
    have hp0 : l0.Perm l0' := by
      rw [parseChangesets_eq_map h0, parseChangesets_eq_map h0']
      exact hperm.map _
    have hpl : l.Perm l' := by
      rw [hl, hl']
      exact ((List.perm_insertionSort idLe l0).trans hp0).trans
        (List.perm_insertionSort idLe l0').symm
    exact ⟨pairwise_lt_map_key Changeset.id hsorted hnodup,
           sorted_key_eq_of_perm Changeset.id hpl hsorted hsorted' hnodup⟩
  · obtain ⟨s0, hS0, hsl, hsorted⟩ := parse_history_ok hS
    obtain ⟨s0', hS0', hsl', hsorted'⟩ := parse_history_ok hS'
    have hp0 : s0.Perm s0' := by
      rw [parseSimpleList_eq_map hS0, parseSimpleList_eq_map hS0']
      exact hpermS.map _
    have hpl : s.Perm s' := by
      rw [hsl, hsl']
      exact ((List.perm_insertionSort idLeS s0).trans hp0).trans
        (List.perm_insertionSort idLeS s0').symm
    exact ⟨pairwise_lt_map_key SimpleCS.id hsorted hnodupS,
           sorted_key_eq_of_perm SimpleCS.id hpl hsorted hsorted' hnodupS⟩

/-- Witness for C1: the two-changeset history, fed in either record order,
parses (in both variants) to the same id-sorted list. -/
theorem c1_witness :
    ((c1sorted.map Changeset.id).Pairwise (fun a b => a < b) ∧ c1sorted = c1sorted) ∧
    ((c1sortedS.map SimpleCS.id).Pairwise (fun a b => a < b) ∧ c1sortedS = c1sortedS) :=
  c1_ascending_id_order_input_independent c1docA c1docB c1sorted c1sorted
    (List.Perm.swap _ _ _) rfl rfl (by decide)
    c1docA c1docB c1sortedS c1sortedS
    (List.Perm.swap _ _ _) rfl rfl (by decide)

/-! ### C2 -/

/-- File application reads only the `cat` outcomes of the oracle. -/
theorem applyAction_cat_congr {orc orc' : Oracle} (h : orc'.cat = orc.cat)
    (fs : Fs) (act : FileAction) : applyAction orc' fs act = applyAction orc fs act := by
  cases act with
  | add_or_update path cs_id => simp [applyAction, h]
  | delete path cs_id => rfl

theorem applyActions_cat_congr {orc orc' : Oracle} (h : orc'.cat = orc.cat) :
    ∀ (acts : List FileAction) (fs : Fs),
      applyActions orc' fs acts = applyActions orc fs acts := by
  intro acts
  induction acts with
  | nil => intro fs; rfl
  | cons act rest ih =>
    intro fs
    rw [applyActions, applyActions, applyAction_cat_congr h]
    cases applyAction orc fs act with
    | error msg => rfl
    | ok fs1 => exact ih fs1

theorem apply_changeset_files_cat_congr {orc orc' : Oracle} (h : orc'.cat = orc.cat)
    (fs : Fs) (cs : Changeset) (i : Int) :
    apply_changeset_files orc' fs cs i = apply_changeset_files orc fs cs i :=
  applyActions_cat_congr h _ _

theorem create_git_commit_commitOk_congr {orc orc' : Oracle}
    (h : orc'.commitOk = orc.commitOk) (m : String) (d : Option String)
    (e n : String) (idx : Nat) :
    create_git_commit orc' m d e n idx = create_git_commit orc m d e n idx := by
  simp [create_git_commit, h]

/-- C2 counterexample: a run in which every branch-creation/checkout command
fails (`orcBranchFail`) on a one-changeset history with one `Added` file.
Contrary to the claim, the changeset's remaining steps are not skipped: the
content is reconciled (the file is written into the working directory) and a
commit attempt is performed (one commit record, and it succeeds), and no
failure is recorded for the changeset. -/
theorem c2_counterexample :
    (migrate_history orcBranchFail fsEmpty docOneAdd).map
        (fun p => (p.1.commits.map (fun c => (c.message, c.ok)), p.1.fs "a.txt")) =
      Except.ok ([("msg", true)], some "data") := rfl

/-- C2 amended: the driver ignores the outcome of the branch-creation/switch
commands entirely — the run is identical under any outcomes of
`git rev-parse`, `git checkout -b` and `git checkout` (both variants), and
whenever a changeset's step succeeds it has performed exactly one commit
attempt, so reconciliation and commit are never skipped on branch failure. -/
theorem c2_amended_branch_failure_ignored
    (orc orc' : Oracle) (hcat : orc'.cat = orc.cat)
    (hcommit : orc'.commitOk = orc.commitOk) (hswitch : orc'.switchOk = orc.switchOk)
    (st : PRunState) (cs : Changeset) (st2 : SRunState) (cs2 : SimpleCS) :
    stepPlastic orc' st cs = stepPlastic orc st cs ∧
    stepSimple orc' st2 cs2 = stepSimple orc st2 cs2 ∧
    (stepPlastic orc st cs).map (fun st' => st'.commits.length) =
      (stepPlastic orc st cs).map (fun _ => st.commits.length + 1) := by
  refine ⟨?_, ?_, ?_⟩
  · unfold stepPlastic
    cases cs.branch with
    | none => rfl
    | some b =>
      simp only [apply_changeset_files_cat_congr hcat,
                 create_git_commit_commitOk_congr hcommit]
  · unfold stepSimple
    rw [hswitch, hcommit]
  · unfold stepPlastic
    cases hb : cs.branch with
    | none => rfl
    | some b =>
      by_cases hC : some (gitBranchName b) ≠ st.current_branch
      · simp only [if_pos hC]
        cases hap : apply_changeset_files orc
            ({ st with current_branch := some (gitBranchName b),
                       git_branches :=
                         if gitBranchName b ∈ st.git_branches then st.git_branches
                         else st.git_branches ++ [gitBranchName b],
                       branchCalls := st.branchCalls ++ [gitBranchName b] } : PRunState).fs
            cs cs.id with
        | error msg => rfl
        | ok fs1 => simp [Except.map]
      · simp only [if_neg hC]
        cases hap : apply_changeset_files orc st.fs cs cs.id with
        | error msg => rfl
        | ok fs1 => simp [Except.map]

/-- Witness for the amended C2: `orcBranchFail` and `orcAllOk` agree on
content retrieval, commits and switches and differ exactly in the branch
commands, yet produce identical steps; and the successful step performed
exactly one commit attempt. -/
theorem c2_amended_witness :
    stepPlastic orcBranchFail pstInit cs9 = stepPlastic orcAllOk pstInit cs9 ∧
    stepSimple orcBranchFail sstInit scs10 = stepSimple orcAllOk sstInit scs10 ∧
    (stepPlastic orcAllOk pstInit cs9).map (fun st' => st'.commits.length) =
      (stepPlastic orcAllOk pstInit cs9).map (fun _ => pstInit.commits.length + 1) :=
  c2_amended_branch_failure_ignored orcAllOk orcBranchFail rfl rfl rfl
    pstInit cs9 sstInit scs10

/-! ### C3 -/

/-- C3 counterexample: a two-changeset history on which every commit command
fails.  The run does continue, but the main variant's final summary reports
`2` commits created although `0` commit operations succeeded — its printed
count does not exclude failed changesets. -/
theorem c3_counterexample :
    (migrate_history orcCommitFail fsEmpty docTwo).map
        (fun p => (p.2.commits_created, p.1.commits.map (fun c => c.ok))) =
      Except.ok (2, [false, false]) := rfl

/-- A successful plastic-variant step appends exactly one commit record. -/
theorem stepPlastic_commits_length {orc : Oracle} {st st' : PRunState}
    {cs : Changeset} (h : stepPlastic orc st cs = Except.ok st') :
    st'.commits.length = st.commits.length + 1 := by
  cases hb : cs.branch with
  | none => unfold stepPlastic at h; rw [hb] at h; cases h
  | some b =>
    simp only [stepPlastic, hb] at h
    by_cases hC : some (gitBranchName b) ≠ st.current_branch
    · rw [if_pos hC] at h
      cases hap : apply_changeset_files orc
          ({ st with current_branch := some (gitBranchName b),
                     git_branches :=
                       if gitBranchName b ∈ st.git_branches then st.git_branches
                       else st.git_branches ++ [gitBranchName b],
                     branchCalls := st.branchCalls ++ [gitBranchName b] } : PRunState).fs
          cs cs.id with
      | error msg => rw [hap] at h; cases h
      | ok fs1 => rw [hap] at h; cases h; simp
    · rw [if_neg hC] at h
      cases hap : apply_changeset_files orc st.fs cs cs.id with
      | error msg => rw [hap] at h; cases h
      | ok fs1 => rw [hap] at h; cases h; simp

/-- A successful plastic run appends one commit record per changeset. -/
theorem runPlastic_commits_length (orc : Oracle) :
    ∀ (l : List Changeset) (st st' : PRunState),
      runPlastic orc st l = Except.ok st' →
      st'.commits.length = st.commits.length + l.length := by
  intro l
  induction l with
  | nil => intro st st' h; cases h; simp
  | cons cs rest ih =>
    intro st st' h
    rw [runPlastic] at h
    cases hs : stepPlastic orc st cs with
    | error msg => rw [hs] at h; cases h
    | ok st1 =>
      rw [hs] at h
      have h2 := ih st1 st' h
      have h3 := stepPlastic_commits_length hs
      simp only [List.length_cons]
      omega

/-- A successful simple-variant step preserves the invariant that
`success_count` counts exactly the successful commit records. -/
theorem stepSimple_success_inv {orc : Oracle} {st st' : SRunState}
    {cs : SimpleCS} (h : stepSimple orc st cs = Except.ok st')
    (hinv : st.success_count = (st.commits.filter (fun c => c.ok)).length) :
    st'.success_count = (st'.commits.filter (fun c => c.ok)).length := by
  by_cases hs : orc.switchOk cs.id
  · cases hb : cs.branch with
    | none => unfold stepSimple at h; rw [if_pos hs, hb] at h; cases h
    | some b =>
      simp only [stepSimple, hb, if_pos hs] at h
      by_cases hC : some (gitBranchName b) ≠ st.current_branch
      · rw [if_pos hC] at h
        cases h
        cases hok : orc.commitOk st.commits.length <;>
          simp [List.filter_append, hinv, hok]
      · rw [if_neg hC] at h
        cases h
        cases hok : orc.commitOk st.commits.length <;>
          simp [List.filter_append, hinv, hok]
  · unfold stepSimple at h
    rw [if_neg hs] at h
    cases h
    exact hinv

/-- A successful simple run preserves the success-count invariant. -/
theorem runSimple_success_inv (orc : Oracle) :
    ∀ (l : List SimpleCS) (st st' : SRunState),
      runSimple orc st l = Except.ok st' →
      st.success_count = (st.commits.filter (fun c => c.ok)).length →
      st'.success_count = (st'.commits.filter (fun c => c.ok)).length := by
  intro l
  induction l with
  | nil => intro st st' h hinv; cases h; exact hinv
  | cons cs rest ih =>
    intro st st' h hinv
    rw [runSimple] at h
    cases hs : stepSimple orc st cs with
    | error msg => rw [hs] at h; cases h
    | ok st1 => rw [hs] at h; exact ih st1 st' h (stepSimple_success_inv hs hinv)

/-- C3 amended: a commit failure never stops the run in either variant.  The
simple variant's printed summary `success_count/total` counts exactly the
changesets whose commit operation succeeded; the main variant instead prints
the total number of parsed changesets as "commits created" — one commit
record exists per changeset regardless of outcome, and the printed number is
the changeset count, so failed commits are not excluded there. -/
theorem c3_amended_summary_counts
    (orc : Oracle) (root : Xml) (st : SRunState) (s : SSummary)
    (h : migrate orc root = Except.ok (st, s))
    (fs0 : Fs) (stp : PRunState) (sp : PSummary) (l : List Changeset)
    (hp : migrate_history orc fs0 root = Except.ok (stp, sp))
    (hl : parse_xml_history root = Except.ok l) :
    s.success_count = (st.commits.filter (fun c => c.ok)).length ∧
    sp.commits_created = l.length ∧ stp.commits.length = l.length := by
  constructor
  · unfold migrate at h
    cases hph : parse_history root with
    | error msg => rw [hph] at h; cases h
    | ok changesets =>
      simp only [hph] at h
      cases hrun : runSimple orc
          { current_branch := none, git_branches := [], branchCalls := [],
            commits := [], success_count := 0 } changesets with
      | error msg => rw [hrun] at h; cases h
      | ok final =>
        rw [hrun] at h
        cases h
        exact runSimple_success_inv orc changesets _ st hrun rfl
  · unfold migrate_history at hp
    simp only [hl] at hp
    by_cases hemp : l.isEmpty
    · rw [if_pos hemp] at hp; cases hp
    · rw [if_neg hemp] at hp
      cases hrun : runPlastic orc
          { current_branch := none, git_branches := [], branchCalls := [],
            fs := fs0, commits := [] } l with
      | error msg => rw [hrun] at hp; cases hp
      | ok final =>
        rw [hrun] at hp
        cases hp
        refine ⟨rfl, ?_⟩
        have h4 := runPlastic_commits_length orc l _ stp hrun
        simpa using h4

/-- Witness for the amended C3: the two-changeset run with every commit
failing, in both variants — the simple summary reports 0 successes while the
plastic summary reports 2 commits created. -/
theorem c3_amended_witness :
    (⟨0, 2⟩ : SSummary).success_count =
      (c3st.commits.filter (fun c => c.ok)).length ∧
    (⟨2, 1⟩ : PSummary).commits_created = c1sorted.length ∧
    c3stp.commits.length = c1sorted.length :=
  c3_amended_summary_counts orcCommitFail docTwo c3st ⟨0, 2⟩ rfl
    fsEmpty c3stp ⟨2, 1⟩ c1sorted rfl rfl

/-! ### C4 -/

/-- C4: the claim that the written bytes equal the provider's exact output
fails at a concrete input.  The provider returns `"hello\n"` for `/a.txt`
at changeset 1 (`orcNewline`), yet the driver writes `"hello"` — the
`stdout.strip()` inside `run_command` removes the trailing newline (and the
`text=True` decode plus `encode('utf-8', errors='ignore')` round-trip is
lossy on non-UTF-8 binary content), so the content is not the full binary
content unmodified. -/
theorem c4_bytes_not_preserved :
    (migrate_history orcNewline fsEmpty docOneAdd).map (fun p => p.1.fs "a.txt") =
      Except.ok (some "hello") ∧
    orcNewline.cat "/a.txt" 1 = some "hello\n" ∧
    ("hello" : String) ≠ "hello\n" :=
  ⟨rfl, rfl, by decide⟩

/-! ### C5 -/

/-- C5 counterexample: the mapping in the code strips every leading
separator (`lstrip('/')`), not exactly one: on `//main` the code yields
`main`, the claimed one-strip mapping yields `-main`. -/
theorem c5_counterexample :
    gitBranchName "//main" = "main" ∧
    specBranchNameOneStrip "//main" = "-main" ∧
    ("main" : String) ≠ "-main" :=
  ⟨rfl, rfl, by decide⟩

/-- C5 amended: the destination name strips all leading separators and then
replaces each remaining separator with `-`; on branch paths without a double
leading separator (every realistic branch path) this coincides with the
claimed strip-exactly-one mapping, and `/main/feature-x` maps to
`main-feature-x`.  (Determinism is immediate: the mapping is a pure
function.) -/
theorem c5_amended_lstrip_all (s : String)
    (h : hasDoubleLeadingSlash s = false) :
    gitBranchName s = specBranchNameOneStrip s ∧
    gitBranchName "/main/feature-x" = "main-feature-x" := by
  refine ⟨?_, rfl⟩
  cases s with
  | mk data =>
    unfold gitBranchName specBranchNameOneStrip
    congr 1
    unfold lstripSlashes stripOneLeadingSlash
    cases data with
    | nil => rfl
    | cons c rest =>
      by_cases hc : c = '/'
      · subst hc
        cases rest with
        | nil => rfl
        | cons c2 rest2 =>
          by_cases hc2 : c2 = '/'
          · subst hc2
            exact absurd h (by simp [hasDoubleLeadingSlash])
          · simp [List.dropWhile, hc2]
      · simp [List.dropWhile, hc]

/-- Witness for the amended C5 at the spec's own example branch path. -/
theorem c5_amended_witness :
    hasDoubleLeadingSlash "/main/feature-x" = false ∧
    (gitBranchName "/main/feature-x" = specBranchNameOneStrip "/main/feature-x" ∧
     gitBranchName "/main/feature-x" = "main-feature-x") :=
  ⟨rfl, c5_amended_lstrip_all "/main/feature-x" rfl⟩

/-! ### C6 -/

/-- C6 counterexample: a history whose only changeset record has every
required field but no `Changes` section.  The main variant's History Reader
fails on it (the Python `cs_elem.find('Changes').findall('Item')` raises
`AttributeError`), contradicting the claim that such a changeset parses into
an empty change list without failure. -/
theorem c6_counterexample :
    parse_xml_history docNoChanges =
      Except.error "AttributeError: NoneType object has no attribute" := rfl

/-- C6 amended: on a changeset element with all required fields but no
`Changes` section, the simple variant's reader succeeds and treats the
change tally as empty (synthesizing the fallback message when the comment is
blank), while the main variant's reader fails with an `AttributeError`. -/
theorem c6_amended_missing_changes
    (e eid eb ec eo ed : Xml) (idt ct : String) (n : Int)
    (hid : e.find "ChangesetId" = some eid) (hidt : eid.text = some idt)
    (hn : pyIntOfString idt = some n)
    (hb : e.find "Branch" = some eb) (hc : e.find "Comment" = some ec)
    (ho : e.find "Owner" = some eo) (hd : e.find "Date" = some ed)
    (hct : ec.text = some ct)
    (hch : e.find "Changes" = none) :
    parseChangesetElem e =
      Except.error "AttributeError: NoneType object has no attribute" ∧
    parseSimpleCS e = Except.ok ⟨n, eb.text,
      (if pyStrip ct = "" then "Update (changeset " ++ toString n ++ ")"
       else pyStrip ct), ed.text⟩ := by
  constructor
  · simp [parseChangesetElem, hid, hidt, hn, hb, hc, ho, hd, hch, reqElem, pyInt]
  · have hty : simpleItemTypes e = Except.ok [] := by
      simp [simpleItemTypes, hch, simpleItemTypes.go]
    simp [parseSimpleCS, hid, hidt, hn, hb, hc, hd, hct, hty, reqElem, pyInt,
          changeParts]

/-- Witness for the amended C6 at the concrete `elemNoChanges` element. -/
theorem c6_witness :
    parseChangesetElem elemNoChanges =
      Except.error "AttributeError: NoneType object has no attribute" ∧
    parseSimpleCS elemNoChanges = Except.ok ⟨7, some "/main",
      (if pyStrip "" = "" then "Update (changeset " ++ toString (7 : Int) ++ ")"
       else pyStrip ""), some "d7"⟩ :=
  c6_amended_missing_changes elemNoChanges
    (.elem "ChangesetId" (some "7") []) (.elem "Branch" (some "/main") [])
    (.elem "Comment" (some "") []) (.elem "Owner" (some "o") [])
    (.elem "Date" (some "d7") []) "7" "" 7 rfl rfl rfl rfl rfl rfl rfl rfl rfl

/-! ### C7 -/

/-- C7 counterexample: a history whose only changeset carries the comment
`" fix "` (non-empty after trimming).  In the simple variant the message used
for its commit is `"fix"` — the comment trimmed at parse time — not the
original comment verbatim with its surrounding whitespace. -/
theorem c7_counterexample :
    (migrate orcAllOk docPaddedComment).map
        (fun p => p.1.commits.map (fun c => c.message)) =
      Except.ok ["fix"] ∧ ("fix" : String) ≠ " fix " :=
  ⟨rfl, by decide⟩

/-- C7 amended: when the comment is non-empty after trimming, the main
variant's Message Synthesizer returns it verbatim (whitespace included),
while the simple variant uses the comment trimmed at parse time as the
commit message. -/
theorem c7_amended_verbatim_vs_trimmed
    (cs : Changeset) (hcs : pyStrip cs.comment ≠ "")
    (e eid eb ec ed : Xml) (idt ct : String) (n : Int)
    (tys : List (Option String))
    (hid : e.find "ChangesetId" = some eid) (hidt : eid.text = some idt)
    (hn : pyIntOfString idt = some n)
    (hb : e.find "Branch" = some eb) (hc : e.find "Comment" = some ec)
    (hd : e.find "Date" = some ed) (hct : ec.text = some ct)
    (hty : simpleItemTypes e = Except.ok tys)
    (hstrip : pyStrip ct ≠ "") :
    generate_commit_message cs = cs.comment ∧
    parseSimpleCS e = Except.ok ⟨n, eb.text, pyStrip ct, ed.text⟩ := by
  constructor
  · simp [generate_commit_message, hcs]
  · simp [parseSimpleCS, hid, hidt, hn, hb, hc, hd, hct, hty, reqElem, pyInt, hstrip]

/-- Witness for the amended C7 at the padded comment `" fix "`. -/
theorem c7_witness :
    generate_commit_message csPadded = csPadded.comment ∧
    parseSimpleCS (csElem "1" "/main" " fix " "o" "d1" []) =
      Except.ok ⟨1, some "/main", pyStrip " fix ", some "d1"⟩ :=
  c7_amended_verbatim_vs_trimmed csPadded (by decide)
    (csElem "1" "/main" " fix " "o" "d1" [])
    (.elem "ChangesetId" (some "1") []) (.elem "Branch" (some "/main") [])
    (.elem "Comment" (some " fix ") []) (.elem "Date" (some "d1") [])
    "1" " fix " 1 [] rfl rfl rfl rfl rfl rfl rfl rfl (by decide)

/-! ### C8 -/

/-- C8: for a changeset whose comment is blank after trimming and whose
change list is non-empty, the synthesized message lists each present change
type with its count, in the fixed order Added, Changed, Deleted, Moved,
joined by `", "` — the message is a function of the per-type counts alone. -/
theorem c8_synthesized_message (cs : Changeset) (a c d m : Nat)
    (hcomment : pyStrip cs.comment = "") (hne : cs.changes ≠ [])
    (ha : countType cs.changes "Added" = a)
    (hc : countType cs.changes "Changed" = c)
    (hd : countType cs.changes "Deleted" = d)
    (hm : countType cs.changes "Moved" = m) :
    generate_commit_message cs = String.intercalate ", "
      ((if a ≠ 0 then ["Add " ++ toString a ++ " file(s)"] else []) ++
       (if c ≠ 0 then ["Update " ++ toString c ++ " file(s)"] else []) ++
       (if d ≠ 0 then ["Delete " ++ toString d ++ " file(s)"] else []) ++
       (if m ≠ 0 then ["Move " ++ toString m ++ " file(s)"] else [])) := by
  subst ha hc hd hm
  cases hch : cs.changes with
  | nil => exact absurd hch hne
  | cons x xs =>
    simp only [generate_commit_message, hcomment, changeParts]
    rw [hch]
    simp [changeParts]

/-- Witness for C8: three `Added` changes and one `Deleted` change yield
exactly the message of the spec's example. -/
theorem c8_witness :
    generate_commit_message cs8 = String.intercalate ", "
      ((if (3 : Nat) ≠ 0 then ["Add " ++ toString (3 : Nat) ++ " file(s)"] else []) ++
       (if (0 : Nat) ≠ 0 then ["Update " ++ toString (0 : Nat) ++ " file(s)"] else []) ++
       (if (1 : Nat) ≠ 0 then ["Delete " ++ toString (1 : Nat) ++ " file(s)"] else []) ++
       (if (0 : Nat) ≠ 0 then ["Move " ++ toString (0 : Nat) ++ " file(s)"] else [])) ∧
    generate_commit_message cs8 = "Add 3 file(s), Delete 1 file(s)" :=
  ⟨c8_synthesized_message cs8 3 0 1 0 rfl (by decide) rfl rfl rfl rfl, rfl⟩

/-! ### C9 -/

/-- C9: a changeset with an empty change list and a blank (after trimming)
comment still produces exactly one commit attempt — appended with
`--allow-empty` set and the working directory untouched — whose message is
exactly `Update (changeset <id>)`. -/
theorem c9_empty_changeset_one_commit
    (orc : Oracle) (st : PRunState) (cs : Changeset) (b : String)
    (hb : cs.branch = some b) (hch : cs.changes = [])
    (hcm : pyStrip cs.comment = "") :
    (stepPlastic orc st cs).map (fun st' => st'.commits) =
      Except.ok (st.commits ++
        [create_git_commit orc ("Update (changeset " ++ toString cs.id ++ ")")
          cs.date_str GIT_AUTHOR_EMAIL GIT_AUTHOR_NAME st.commits.length]) ∧
    (stepPlastic orc st cs).map (fun st' => st'.fs) = Except.ok st.fs ∧
    (create_git_commit orc ("Update (changeset " ++ toString cs.id ++ ")")
        cs.date_str GIT_AUTHOR_EMAIL GIT_AUTHOR_NAME st.commits.length).allow_empty
      = true ∧
    (create_git_commit orc ("Update (changeset " ++ toString cs.id ++ ")")
        cs.date_str GIT_AUTHOR_EMAIL GIT_AUTHOR_NAME st.commits.length).message
      = "Update (changeset " ++ toString cs.id ++ ")" := by
  have hmsg : generate_commit_message cs =
      "Update (changeset " ++ toString cs.id ++ ")" := by
    simp [generate_commit_message, hcm, hch]
  have hap : ∀ fs : Fs, apply_changeset_files orc fs cs cs.id = Except.ok fs := by
    intro fs
    simp [apply_changeset_files, files_to_process, hch, applyActions]
  refine ⟨?_, ?_, rfl, rfl⟩
  · by_cases hC : some (gitBranchName b) ≠ st.current_branch
    · simp [stepPlastic, hb, if_pos hC, hap, hmsg, Except.map]
    · simp [stepPlastic, hb, if_neg hC, hap, hmsg, Except.map]
  · by_cases hC : some (gitBranchName b) ≠ st.current_branch
    · simp [stepPlastic, hb, if_pos hC, hap, Except.map]
    · simp [stepPlastic, hb, if_neg hC, hap, Except.map]

/-- Witness for C9 at a concrete empty changeset. -/
theorem c9_witness :
    (stepPlastic orcAllOk pstInit cs9).map (fun st' => st'.commits) =
      Except.ok (pstInit.commits ++
        [create_git_commit orcAllOk ("Update (changeset " ++ toString cs9.id ++ ")")
          cs9.date_str GIT_AUTHOR_EMAIL GIT_AUTHOR_NAME pstInit.commits.length]) ∧
    (stepPlastic orcAllOk pstInit cs9).map (fun st' => st'.fs) =
      Except.ok pstInit.fs ∧
    (create_git_commit orcAllOk ("Update (changeset " ++ toString cs9.id ++ ")")
        cs9.date_str GIT_AUTHOR_EMAIL GIT_AUTHOR_NAME pstInit.commits.length).allow_empty
      = true ∧
    (create_git_commit orcAllOk ("Update (changeset " ++ toString cs9.id ++ ")")
        cs9.date_str GIT_AUTHOR_EMAIL GIT_AUTHOR_NAME pstInit.commits.length).message
      = "Update (changeset " ++ toString cs9.id ++ ")" :=
  c9_empty_changeset_one_commit orcAllOk pstInit cs9 "/main" rfl rfl rfl

/-! ### C10 -/

/-- A successful plastic step never removes names from the created-branch
set. -/
theorem stepPlastic_branches_mono {orc : Oracle} {st st' : PRunState}
    {cs : Changeset} (h : stepPlastic orc st cs = Except.ok st') :
    st.git_branches ⊆ st'.git_branches := by
  cases hb : cs.branch with
  | none => unfold stepPlastic at h; rw [hb] at h; cases h
  | some b =>
    simp only [stepPlastic, hb] at h
    by_cases hC : some (gitBranchName b) ≠ st.current_branch
    · rw [if_pos hC] at h
      cases hap : apply_changeset_files orc
          ({ st with current_branch := some (gitBranchName b),
                     git_branches :=
                       if gitBranchName b ∈ st.git_branches then st.git_branches
                       else st.git_branches ++ [gitBranchName b],
                     branchCalls := st.branchCalls ++ [gitBranchName b] } : PRunState).fs
          cs cs.id with
      | error msg => rw [hap] at h; cases h
      | ok fs1 =>
        rw [hap] at h
        cases h
        by_cases hmem : gitBranchName b ∈ st.git_branches
        · simp [hmem]
        · simp only [if_neg hmem]
          exact fun x hx => List.mem_append_left _ hx
    · rw [if_neg hC] at h
      cases hap : apply_changeset_files orc st.fs cs cs.id with
      | error msg => rw [hap] at h; cases h
      | ok fs1 => rw [hap] at h; cases h; exact fun x hx => hx

/-- A successful plastic run never removes names from the created-branch
set: everything recorded along the way is still in the final summary set. -/
theorem runPlastic_branches_mono (orc : Oracle) :
    ∀ (l : List Changeset) (st st' : PRunState),
      runPlastic orc st l = Except.ok st' →
      st.git_branches ⊆ st'.git_branches := by
  intro l
  induction l with
  | nil => intro st st' h; cases h; exact fun x hx => hx
  | cons cs rest ih =>
    intro st st' h
    rw [runPlastic] at h
    cases hs : stepPlastic orc st cs with
    | error msg => rw [hs] at h; cases h
    | ok st1 =>
      rw [hs] at h
      exact fun x hx => ih st1 st' h (stepPlastic_branches_mono hs hx)

/-- C10: when the mapped branch name differs from the tracked one, the
driver updates its branch state unconditionally — even when both the
existence probe and the checkout command fail, `current_branch` becomes the
mapped name, the name enters the created-branch set, and the branch command
is issued; a later changeset on the same branch issues no further branch
command (the failed switch is never retried); and the set only grows, so the
name still reaches the final summary.  The simple variant behaves the same
way. -/
theorem c10_branch_state_updated_unconditionally
    (orc : Oracle) (st : PRunState) (cs : Changeset) (b : String)
    (hb : cs.branch = some b)
    (hdiff : some (gitBranchName b) ≠ st.current_branch)
    (hfail1 : orc.branchExists (gitBranchName b) = false)
    (hfail2 : orc.checkoutNewOk (gitBranchName b) = false) :
    (∀ st', stepPlastic orc st cs = Except.ok st' →
       st'.current_branch = some (gitBranchName b) ∧
       gitBranchName b ∈ st'.git_branches ∧
       st'.branchCalls = st.branchCalls ++ [gitBranchName b]) ∧
    (∀ (st2 : PRunState) (cs2 : Changeset) (st3 : PRunState),
       cs2.branch = some b →
       st2.current_branch = some (gitBranchName b) →
       stepPlastic orc st2 cs2 = Except.ok st3 →
       st3.branchCalls = st2.branchCalls ∧
       st3.git_branches = st2.git_branches ∧
       st3.current_branch = st2.current_branch) ∧
    (∀ (l : List Changeset) (st4 st5 : PRunState),
       runPlastic orc st4 l = Except.ok st5 →
       st4.git_branches ⊆ st5.git_branches) ∧
    (∀ (st6 : SRunState) (cs6 : SimpleCS) (st7 : SRunState),
       orc.switchOk cs6.id = true → cs6.branch = some b →
       some (gitBranchName b) ≠ st6.current_branch →
       stepSimple orc st6 cs6 = Except.ok st7 →
       st7.current_branch = some (gitBranchName b) ∧
       gitBranchName b ∈ st7.git_branches) := by
  refine ⟨?_, ?_, runPlastic_branches_mono orc, ?_⟩
  · intro st' h
    simp only [stepPlastic, hb, if_pos hdiff] at h
    cases hap : apply_changeset_files orc
        ({ st with current_branch := some (gitBranchName b),
                   git_branches :=
                     if gitBranchName b ∈ st.git_branches then st.git_branches
                     else st.git_branches ++ [gitBranchName b],
                   branchCalls := st.branchCalls ++ [gitBranchName b] } : PRunState).fs
        cs cs.id with
    | error msg => rw [hap] at h; cases h
    | ok fs1 =>
      rw [hap] at h
      cases h
      refine ⟨rfl, ?_, rfl⟩
      by_cases hmem : gitBranchName b ∈ st.git_branches
      · simp [hmem]
      · simp [if_neg hmem]
  · intro st2 cs2 st3 hb2 hcur h
    have hC : ¬ some (gitBranchName b) ≠ st2.current_branch := by
      rw [hcur]; exact fun hne => hne rfl
    simp only [stepPlastic, hb2, if_neg hC] at h
    cases hap : apply_changeset_files orc st2.fs cs2 cs2.id with
    | error msg => rw [hap] at h; cases h
    | ok fs1 => rw [hap] at h; cases h; exact ⟨rfl, rfl, rfl⟩
  · intro st6 cs6 st7 hsw hb6 hdiff6 h
    simp only [stepSimple, hsw, if_pos, hb6, if_pos hdiff6] at h
    cases h
    refine ⟨rfl, ?_⟩
    by_cases hmem : gitBranchName b ∈ st6.git_branches
    · simp [hmem]
    · simp [if_neg hmem]

/-- Witness for C10: concrete failing-branch oracle, fresh run state, and a
changeset on `/feature/x`. -/
theorem c10_witness :
    (orcBranchFail.branchExists (gitBranchName "/feature/x") = false ∧
     orcBranchFail.checkoutNewOk (gitBranchName "/feature/x") = false ∧
     some (gitBranchName "/feature/x") ≠ pstInit.current_branch) ∧
    ((∀ st', stepPlastic orcBranchFail pstInit cs10 = Except.ok st' →
        st'.current_branch = some (gitBranchName "/feature/x") ∧
        gitBranchName "/feature/x" ∈ st'.git_branches ∧
        st'.branchCalls = pstInit.branchCalls ++ [gitBranchName "/feature/x"]) ∧
     (∀ (st2 : PRunState) (cs2 : Changeset) (st3 : PRunState),
        cs2.branch = some "/feature/x" →
        st2.current_branch = some (gitBranchName "/feature/x") →
        stepPlastic orcBranchFail st2 cs2 = Except.ok st3 →
        st3.branchCalls = st2.branchCalls ∧
        st3.git_branches = st2.git_branches ∧
        st3.current_branch = st2.current_branch) ∧
     (∀ (l : List Changeset) (st4 st5 : PRunState),
        runPlastic orcBranchFail st4 l = Except.ok st5 →
        st4.git_branches ⊆ st5.git_branches) ∧
     (∀ (st6 : SRunState) (cs6 : SimpleCS) (st7 : SRunState),
        orcBranchFail.switchOk cs6.id = true → cs6.branch = some "/feature/x" →
        some (gitBranchName "/feature/x") ≠ st6.current_branch →
        stepSimple orcBranchFail st6 cs6 = Except.ok st7 →
        st7.current_branch = some (gitBranchName "/feature/x") ∧
        gitBranchName "/feature/x" ∈ st7.git_branches)) :=
  ⟨⟨rfl, rfl, by decide⟩,
   c10_branch_state_updated_unconditionally orcBranchFail pstInit cs10
     "/feature/x" rfl (by decide) rfl rfl⟩

end Migration
